import Mathlib

/-!
Verification of the resolution-and-ranking pipeline of `app.py`
(teacher transfer tool).

The Python source is shallowly embedded as follows.

* An input spreadsheet row (columns `School`, `Mandal`, `Category`) is a
  `Row`; `Category` values are integers in the observed data.
* Coordinates are pairs of rationals (Python floats form a subset of the
  rationals; ordering of non-NaN floats agrees with the rational order,
  and the missing-distance `NaN`/`None` case is modelled by `Option`).
* The geocode cache (a JSON-backed Python dict) is an association list
  with dict semantics: lookup by key, assignment overwrites an existing
  key in place and otherwise appends.
* The external Nominatim service is an oracle `String → GeoOutcome`:
  for a given address the call either returns a location, returns no
  result, or raises (timeout / transport error).
* Python exceptions are modelled with `Except PyErr`; the `try/except`
  in `geocode_address_nominatim` becomes a `match` on the result of the
  external call.
* The side effects relevant to the design — external calls, the
  unconditional `sleep(1)`, and `save_cache` — are recorded in an event
  trace.
* `DISTRICT`, the name used in the address f-strings of `process`, is
  looked up in the module's global namespace at each loop iteration; the
  lookup result is the `districtGlobal : Option String` parameter, and a
  failed lookup is Python's `NameError`.  `appModuleNames` lists the
  names actually bound at module level in `app.py`.
-/

namespace APTransfers

/-- One input spreadsheet row: columns `School`, `Mandal`, `Category`. -/
structure Row where
  school : String
  mandal : String
  category : Int
deriving DecidableEq

/-- A (latitude, longitude) pair. -/
abbrev Coord := ℚ × ℚ

/-- The geocode cache: a JSON-backed dict from address strings to coordinates. -/
abbrev Cache := List (String × Coord)

/-- Result of one raw call to the external geocoding service:
a location, no result, or a raised exception (timeout / transport error). -/
inductive GeoOutcome where
  | found : Coord → GeoOutcome
  | notFound : GeoOutcome
  | err : GeoOutcome
deriving DecidableEq

/-- The Python exceptions that can arise in the embedded fragment. -/
inductive PyErr where
  | nameError : PyErr
  | valueError : PyErr
  | exception : PyErr
deriving DecidableEq

/-- Dict lookup: `cache[k]` / `k in cache`. -/
def cacheLookup (cache : Cache) (k : String) : Option Coord :=
  match cache with
  | [] => none
  | (k', v) :: rest => if k' = k then some v else cacheLookup rest k

/-- Dict assignment `cache[k] = v`: overwrite an existing key, else append. -/
def cacheInsert (cache : Cache) (k : String) (v : Coord) : Cache :=
  match cache with
  | [] => [(k, v)]
  | (k', v') :: rest => if k' = k then (k, v) :: rest else (k', v') :: cacheInsert rest k v

/-- Number of entries of the cache holding key `k`. -/
def countKey (cache : Cache) (k : String) : Nat :=
  cache.countP (fun p => decide (p.1 = k))

/-- A well-formed cache has no duplicate keys (a Python dict never does). -/
def CacheWf (cache : Cache) : Prop :=
  (cache.map Prod.fst).Nodup

instance (cache : Cache) : Decidable (CacheWf cache) :=
  inferInstanceAs (Decidable ((cache.map Prod.fst).Nodup))

/-- The raw external call `geolocator.geocode(address, timeout=10)` together
with the `location.latitude/longitude` extraction: a raised exception is an
`Except.error`. -/
def externalGeocode (outcome : GeoOutcome) : Except PyErr (Option Coord) :=
  match outcome with
  | .found c => .ok (some c)
  | .notFound => .ok none
  | .err => .error .exception

/-- `geocode_address_nominatim(geolocator, address, cache)`:
cache hit returns the cached value with no external call; otherwise one
external call is made, a successful result is written to the cache and
returned, and any raised exception is caught (`except Exception`) and
converted to `None`.  The returned triple is
(result, cache after the call, whether an external call was made). -/
def geocode_address_nominatim (oracle : String → GeoOutcome) (address : String)
    (cache : Cache) : Except PyErr (Option Coord × Cache × Bool) :=
  match cacheLookup cache address with
  | some c => .ok (some c, cache, false)
  | none =>
    match externalGeocode (oracle address) with
    | .ok (some c) => .ok (some c, cacheInsert cache address c, true)
    | .ok none => .ok (none, cache, true)
    | .error _ => .ok (none, cache, true)

/-- Total form of `geocode_address_nominatim` (the function never raises;
see `geocode_eq_run`). -/
def geocodeRun (oracle : String → GeoOutcome) (address : String) (cache : Cache) :
    Option Coord × Cache × Bool :=
  match cacheLookup cache address with
  | some c => (some c, cache, false)
  | none =>
    match externalGeocode (oracle address) with
    | .ok (some c) => (some c, cacheInsert cache address c, true)
    | .ok none => (none, cache, true)
    | .error _ => (none, cache, true)

theorem geocode_eq_run (oracle : String → GeoOutcome) (address : String) (cache : Cache) :
    geocode_address_nominatim oracle address cache = .ok (geocodeRun oracle address cache) := by
  unfold geocode_address_nominatim geocodeRun
  cases cacheLookup cache address with
  | some c => rfl
  | none =>
    cases h : externalGeocode (oracle address) with
    | ok o => cases o <;> rfl
    | error e => rfl

theorem cacheLookup_insert_ne {k a : String} (cache : Cache) (w : Coord) (h : k ≠ a) :
    cacheLookup (cacheInsert cache a w) k = cacheLookup cache k := by
  have h1 : ¬ (a = k) := Ne.symm h
  induction cache with
  | nil => simp [cacheInsert, cacheLookup, h1]
  | cons p rest ih =>
    by_cases hp : p.1 = a
    · have h2 : ¬ (p.1 = k) := by rw [hp]; exact h1
      simp [cacheInsert, hp, cacheLookup, h1, h2]
    · by_cases hk : p.1 = k
      · simp [cacheInsert, hp, cacheLookup, hk, h]
      · simp [cacheInsert, hp, cacheLookup, hk, ih]

theorem geocodeRun_cache_mono (oracle : String → GeoOutcome) (address : String)
    (cache : Cache) {k : String} {v : Coord} (h : cacheLookup cache k = some v) :
    cacheLookup (geocodeRun oracle address cache).2.1 k = some v := by
  unfold geocodeRun
  cases hl : cacheLookup cache address with
  | some c => simpa using h
  | none =>
    cases ho : externalGeocode (oracle address) with
    | ok o =>
      cases o with
      | some c =>
        have hk : k ≠ address := by
          intro he
          rw [he, hl] at h
          exact Option.noConfusion h
        simpa [cacheLookup_insert_ne cache c hk] using h
      | none => simpa using h
    | error e => simpa using h

theorem countKey_eq_one_of_lookup {cache : Cache} (hwf : CacheWf cache)
    {k : String} {v : Coord} (h : cacheLookup cache k = some v) :
    countKey cache k = 1 := by
  induction cache with
  | nil => simp [cacheLookup] at h
  | cons p rest ih =>
    have hwf2 : (p.1 :: rest.map Prod.fst).Nodup := by
      simpa [CacheWf] using hwf
    have hwf' : CacheWf rest := (List.nodup_cons.mp hwf2).2
    have hnot : p.1 ∉ rest.map Prod.fst := (List.nodup_cons.mp hwf2).1
    by_cases hk : p.1 = k
    · have hzero : rest.countP (fun q => decide (q.1 = k)) = 0 := by
        apply List.countP_eq_zero.mpr
        intro q hq
        simp only [decide_eq_true_eq]
        intro hq1
        apply hnot
        rw [hk, ← hq1]
        exact List.mem_map_of_mem Prod.fst hq
      simp [countKey, List.countP_cons, hk, hzero]
    · have hl : cacheLookup rest k = some v := by
        simpa [cacheLookup, hk] using h
      have hrec := ih hwf' hl
      simp [countKey, List.countP_cons, hk] at hrec ⊢
      exact hrec

/-- Observable side effects of `process`: an external geocoding call,
the unconditional `sleep(1)` after each loop iteration, and `save_cache`. -/
inductive Event where
  | extCall : String → Event
  | sleepOne : Event
  | save : Cache → Event
deriving DecidableEq

def isSleep : Event → Bool
  | .sleepOne => true
  | _ => false

def isExtCall : Event → Bool
  | .extCall _ => true
  | _ => false

def isSave : Event → Bool
  | .save _ => true
  | _ => false

def sleepCount (tr : List Event) : Nat := tr.countP isSleep

def extCallCount (tr : List Event) : Nat := tr.countP isExtCall

def saveCount (tr : List Event) : Nat := tr.countP isSave

/-- The full address built at line 62:
`f"{row['School']}, {row['Mandal']}, {DISTRICT}, Andhra Pradesh"`. -/
def fullAddress (district : String) (r : Row) : String :=
  r.school ++ ", " ++ r.mandal ++ ", " ++ district ++ ", Andhra Pradesh"

/-- The Mandal-only fallback address built at line 89:
`f"{row['Mandal']}, {DISTRICT}, Andhra Pradesh"`. -/
def mandalAddress (district : String) (r : Row) : String :=
  r.mandal ++ ", " ++ district ++ ", Andhra Pradesh"

/-- One geocoding loop of `process` (lines 61-70 with `mkAddr = fullAddress`,
lines 88-96 with `mkAddr = mandalAddress`): for each row, build the address
(evaluating the f-string looks up the global name `DISTRICT`, raising
`NameError` when it is unbound), resolve it through the cache-aware geocoder,
`sleep(1)` unconditionally, and record the distance (`None` if unresolved).
Returns the annotated rows and final cache (or the raised exception), paired
with the event trace emitted before returning. -/
def geoPass (oracle : String → GeoOutcome) (distf : Coord → Coord → ℚ) (uc : Coord)
    (districtGlobal : Option String) (mkAddr : String → Row → String) :
    List Row → Cache → Except PyErr (List (Row × Option ℚ) × Cache) × List Event
  | [], cache => (.ok ([], cache), [])
  | r :: rs, cache =>
    match districtGlobal with
    | none => (.error .nameError, [])
    | some d =>
      let g := geocodeRun oracle (mkAddr d r) cache
      let evs := (if g.2.2 then [Event.extCall (mkAddr d r)] else []) ++ [Event.sleepOne]
      match geoPass oracle distf uc districtGlobal mkAddr rs g.2.1 with
      | (.ok (rest, cacheF), evs2) =>
        (.ok ((r, g.1.map (fun c => distf uc c)) :: rest, cacheF), evs ++ evs2)
      | (.error e, evs2) => (.error e, evs ++ evs2)

/-- Total form of `geoPass` for the case where the district name is bound;
see `geoPass_some_eq`. -/
def geoPassRun (oracle : String → GeoOutcome) (distf : Coord → Coord → ℚ) (uc : Coord)
    (addrOf : Row → String) :
    List Row → Cache → List (Row × Option ℚ) × Cache × List Event
  | [], cache => ([], cache, [])
  | r :: rs, cache =>
    let g := geocodeRun oracle (addrOf r) cache
    let evs := (if g.2.2 then [Event.extCall (addrOf r)] else []) ++ [Event.sleepOne]
    let rest := geoPassRun oracle distf uc addrOf rs g.2.1
    ((r, g.1.map (fun c => distf uc c)) :: rest.1, rest.2.1, evs ++ rest.2.2)

theorem geoPass_some_eq (oracle : String → GeoOutcome) (distf : Coord → Coord → ℚ)
    (uc : Coord) (d : String) (mkAddr : String → Row → String) :
    ∀ (rows : List Row) (cache : Cache),
      geoPass oracle distf uc (some d) mkAddr rows cache =
        (.ok ((geoPassRun oracle distf uc (mkAddr d) rows cache).1,
              (geoPassRun oracle distf uc (mkAddr d) rows cache).2.1),
         (geoPassRun oracle distf uc (mkAddr d) rows cache).2.2)
  | [], cache => rfl
  | r :: rs, cache => by
    rw [geoPass, geoPassRun]
    simp only []
    rw [geoPass_some_eq oracle distf uc d mkAddr rs]

/-- `category_priority.index(c)` (Python `list.index`): the position of the
first occurrence, or a raised `ValueError` when absent. -/
def listIndex : List Int → Int → Except PyErr Nat
  | [], _ => .error .valueError
  | x :: xs, c =>
    if x = c then .ok 0
    else match listIndex xs c with
      | .ok n => .ok (n + 1)
      | .error e => .error e

/-- A row together with its `Distance_km` value. -/
abbrev Scored := Row × Option ℚ

/-- A scored row together with its `PriorityIndex`. -/
abbrev Ranked := Scored × Nat

/-- `df['PriorityIndex'] = df['Category'].apply(lambda c: category_priority.index(c))`
(lines 80 and 99): each row gets the position of its category in the priority
list; the first row whose category is absent raises `ValueError`. -/
def addPriorityIndex (prio : List Int) : List Scored → Except PyErr (List Ranked)
  | [] => .ok []
  | s :: ss =>
    match listIndex prio s.1.category with
    | .ok n =>
      match addPriorityIndex prio ss with
      | .ok rest => .ok ((s, n) :: rest)
      | .error e => .error e
    | .error e => .error e

/-- Ordering on `Distance_km` values used by
`sort_values(by=[..., "Distance_km"])`: present values by the numeric order,
missing values (`NaN`, default `na_position='last'`) after every present
value. -/
def distOptLe (a b : Option ℚ) : Prop :=
  match a, b with
  | some x, some y => x ≤ y
  | _, none => True
  | none, some _ => False

instance : ∀ a b : Option ℚ, Decidable (distOptLe a b)
  | some _, some _ => inferInstanceAs (Decidable (_ ≤ _))
  | some _, none => inferInstanceAs (Decidable True)
  | none, none => inferInstanceAs (Decidable True)
  | none, some _ => inferInstanceAs (Decidable False)

/-- The `sort_values(by=["PriorityIndex", "Distance_km"])` sort key order:
priority rank ascending, then distance ascending with missing distances last. -/
def RankedLe (a b : Ranked) : Prop :=
  a.2 < b.2 ∨ (a.2 = b.2 ∧ distOptLe a.1.2 b.1.2)

instance : DecidableRel RankedLe := fun a b =>
  inferInstanceAs (Decidable (a.2 < b.2 ∨ (a.2 = b.2 ∧ distOptLe a.1.2 b.1.2)))

/-- The sort key of a ranked row: (`PriorityIndex`, `Distance_km`). -/
def rankedKey (x : Ranked) : Nat × Option ℚ := (x.2, x.1.2)

/-- `df.sort_values(by=["PriorityIndex", "Distance_km"])` (lines 81 and 100):
a multi-column pandas sort is a stable lexicographic sort (numpy `lexsort`)
with missing values last; a stable sort by a total preorder is unique, so it
is modelled by stable insertion sort on the key order. -/
def rankSort (l : List Ranked) : List Ranked :=
  List.insertionSort RankedLe l

/-- One row of the output table: columns `School`, `Mandal`, `Category`,
`Distance_km` (lines 82 and 101 project these four columns). -/
structure OutRow where
  school : String
  mandal : String
  category : Int
  distance : Option ℚ
deriving DecidableEq

def toOutRow (x : Ranked) : OutRow :=
  ⟨x.1.1.school, x.1.1.mandal, x.1.1.category, x.1.2⟩

/-- All the intermediate tables of a successful `process` run, named after
the pandas variables of the source. -/
structure ProcOut where
  /-- `df` with its `Distance_km` column after the first pass (lines 61-73). -/
  scored : List Scored
  /-- `df_valid` (line 76): rows whose full address produced a distance. -/
  dfValid : List Scored
  /-- `df_missing` before the fallback pass (line 77). -/
  dfMissing : List Row
  /-- The cache as persisted by `save_cache(cache)` at line 72. -/
  savedCache : Cache
  /-- `df_missing` with its Mandal-derived `Distance_km` (lines 88-98). -/
  missingScored : List Scored
  /-- `df_valid_sorted` before column projection (lines 80-81). -/
  validRanked : List Ranked
  /-- `df_missing_sorted` before column projection (lines 99-100). -/
  missingRanked : List Ranked
  /-- `df_valid_sorted` (line 82). -/
  dfValidSorted : List OutRow
  /-- `df_missing_sorted` (line 101). -/
  dfMissingSorted : List OutRow
  /-- `final_df` (line 104). -/
  finalDf : List OutRow
  /-- The in-memory cache at the end of the run (never saved again). -/
  finalCache : Cache
deriving DecidableEq

def defaultProcOut : ProcOut := ⟨[], [], [], [], [], [], [], [], [], [], []⟩

/-- `process(xlsx_file, user_coords, category_priority)` (lines 42-111).

Parameters: `oracle` models the external service, `distf` the geodesic
distance `geodesic(a, b).km`, `districtGlobal` the value of the module
global `DISTRICT` (`none` when the name is unbound), `colsOk` whether the
required columns `School`/`Mandal`/`Category` are present, `userCoords` the
`user_coords` argument (`none` when falsy), `cache0` the cache loaded from
disk by `load_cache()`, and `rows` the spreadsheet rows.

Returns `.ok none` when `process` returns `None` (missing columns or no
user coordinates), `.ok (some _)` on success, `.error _` when a Python
exception propagates out; paired with the emitted event trace. -/
def processCore (oracle : String → GeoOutcome) (distf : Coord → Coord → ℚ)
    (districtGlobal : Option String) (uc : Coord)
    (priority : List Int) (cache0 : Cache) (rows : List Row) :
    Except PyErr ProcOut × List Event :=
  match geoPass oracle distf uc districtGlobal fullAddress rows cache0 with
  | (.error e, tr1) => (.error e, tr1)
  | (.ok (scored, cache1), tr1) =>
    let trS := tr1 ++ [Event.save cache1]
    let dfValid := scored.filter (fun s => s.2.isSome)
    let dfMissing := (scored.filter (fun s => !s.2.isSome)).map Prod.fst
    match addPriorityIndex priority dfValid with
    | .error e => (.error e, trS)
    | .ok validR =>
      let validSorted := rankSort validR
      match geoPass oracle distf uc districtGlobal mandalAddress dfMissing cache1 with
      | (.error e, tr2) => (.error e, trS ++ tr2)
      | (.ok (missScored, cache2), tr2) =>
        match addPriorityIndex priority missScored with
        | .error e => (.error e, trS ++ tr2)
        | .ok missR =>
          let missSorted := rankSort missR
          (.ok
            { scored := scored
              dfValid := dfValid
              dfMissing := dfMissing
              savedCache := cache1
              missingScored := missScored
              validRanked := validSorted
              missingRanked := missSorted
              dfValidSorted := validSorted.map toOutRow
              dfMissingSorted := missSorted.map toOutRow
              finalDf := validSorted.map toOutRow ++ missSorted.map toOutRow
              finalCache := cache2 },
           trS ++ tr2)

def process (oracle : String → GeoOutcome) (distf : Coord → Coord → ℚ)
    (districtGlobal : Option String) (colsOk : Bool) (userCoords : Option Coord)
    (priority : List Int) (cache0 : Cache) (rows : List Row) :
    Except PyErr (Option ProcOut) × List Event :=
  if colsOk = false then (.ok none, [])
  else
    match userCoords with
    | none => (.ok none, [])
    | some uc =>
      match processCore oracle distf districtGlobal uc priority cache0 rows with
      | (.ok po, tr) => (.ok (some po), tr)
      | (.error e, tr) => (.error e, tr)

/-- The names bound at module level in `app.py`: the imports (lines 1-9),
the four function definitions, and the script-level assignments of the
Streamlit UI block (lines 162-196).  `DISTRICT` is not among them. -/
def appModuleNames : List String :=
  ["st", "pd", "Nominatim", "geodesic", "json", "os", "sleep", "BytesIO", "tqdm",
   "load_cache", "save_cache", "geocode_address_nominatim", "load_xlsx_data",
   "process", "uploaded_file", "user_location", "geolocator", "cache",
   "user_coords", "category_priority", "result_file", "lat", "lon"]

/-- The value of the global name `DISTRICT` in `app.py`: the name is never
assigned anywhere in the module (it is absent from `appModuleNames`), so the
lookup performed by the f-strings at lines 62 and 89 fails. -/
def appDistrictGlobal : Option String := none

/-- Project the successful outcome of a `process` result, if any. -/
def procOutOf (x : Except PyErr (Option ProcOut) × List Event) : Option ProcOut :=
  match x.1 with
  | .ok o => o
  | .error _ => none

theorem geoPassRun_map_fst (oracle : String → GeoOutcome) (distf : Coord → Coord → ℚ)
    (uc : Coord) (addrOf : Row → String) :
    ∀ (rows : List Row) (cache : Cache),
      (geoPassRun oracle distf uc addrOf rows cache).1.map Prod.fst = rows
  | [], _ => rfl
  | r :: rs, cache => by
    rw [geoPassRun]
    simp [geoPassRun_map_fst oracle distf uc addrOf rs]

theorem geoPassRun_sleepCount (oracle : String → GeoOutcome) (distf : Coord → Coord → ℚ)
    (uc : Coord) (addrOf : Row → String) :
    ∀ (rows : List Row) (cache : Cache),
      sleepCount (geoPassRun oracle distf uc addrOf rows cache).2.2 = rows.length
  | [], _ => rfl
  | r :: rs, cache => by
    rw [geoPassRun]
    have ih := geoPassRun_sleepCount oracle distf uc addrOf rs
      (geocodeRun oracle (addrOf r) cache).2.1
    cases hg : (geocodeRun oracle (addrOf r) cache).2.2 <;>
      simp [hg, sleepCount, List.countP_append, List.countP_cons, isSleep] at ih ⊢ <;>
      omega

theorem geoPassRun_saveCount (oracle : String → GeoOutcome) (distf : Coord → Coord → ℚ)
    (uc : Coord) (addrOf : Row → String) :
    ∀ (rows : List Row) (cache : Cache),
      saveCount (geoPassRun oracle distf uc addrOf rows cache).2.2 = 0
  | [], _ => rfl
  | r :: rs, cache => by
    rw [geoPassRun]
    have ih := geoPassRun_saveCount oracle distf uc addrOf rs
      (geocodeRun oracle (addrOf r) cache).2.1
    cases hg : (geocodeRun oracle (addrOf r) cache).2.2 <;>
      simp [hg, saveCount, List.countP_append, List.countP_cons, isSave] at ih ⊢ <;>
      exact ih

theorem geoPassRun_extCallCount (oracle : String → GeoOutcome) (distf : Coord → Coord → ℚ)
    (uc : Coord) (addrOf : Row → String) :
    ∀ (rows : List Row) (cache : Cache),
      extCallCount (geoPassRun oracle distf uc addrOf rows cache).2.2 ≤ rows.length
  | [], _ => Nat.le_refl 0
  | r :: rs, cache => by
    rw [geoPassRun]
    have ih := geoPassRun_extCallCount oracle distf uc addrOf rs
        (geocodeRun oracle (addrOf r) cache).2.1
    cases hg : (geocodeRun oracle (addrOf r) cache).2.2 <;>
      simp only [hg, extCallCount, List.countP_append, List.countP_cons,
        List.countP_nil, isExtCall, if_true, if_false, List.length_cons] at ih ⊢ <;>
      simp <;> omega

theorem geoPassRun_cache_mono (oracle : String → GeoOutcome) (distf : Coord → Coord → ℚ)
    (uc : Coord) (addrOf : Row → String) :
    ∀ (rows : List Row) (cache : Cache) {k : String} {v : Coord},
      cacheLookup cache k = some v →
      cacheLookup (geoPassRun oracle distf uc addrOf rows cache).2.1 k = some v
  | [], _, _, _, h => h
  | r :: rs, cache, k, v, h => by
    rw [geoPassRun]
    exact geoPassRun_cache_mono oracle distf uc addrOf rs _
      (geocodeRun_cache_mono oracle (addrOf r) cache h)

theorem listIndex_ok_of_mem {l : List Int} {c : Int} (h : c ∈ l) :
    ∃ n, listIndex l c = .ok n := by
  induction l with
  | nil => cases h
  | cons x xs ih =>
    by_cases hx : x = c
    · exact ⟨0, by simp [listIndex, hx]⟩
    · have hc : c ∈ xs := by
        rcases List.mem_cons.mp h with h1 | h1
        · exact absurd h1.symm hx
        · exact h1
      obtain ⟨n, hn⟩ := ih hc
      exact ⟨n + 1, by simp [listIndex, hx, hn]⟩

theorem listIndex_error_of_not_mem {l : List Int} {c : Int} (h : c ∉ l) :
    listIndex l c = .error .valueError := by
  induction l with
  | nil => rfl
  | cons x xs ih =>
    have hx : ¬ (x = c) := fun he => h (by simp [he])
    have hc : c ∉ xs := fun hm => h (List.mem_cons_of_mem x hm)
    simp [listIndex, hx, ih hc]

theorem addPriorityIndex_ok_map_fst {prio : List Int} :
    ∀ {ss : List Scored} {rr : List Ranked},
      addPriorityIndex prio ss = .ok rr → rr.map Prod.fst = ss
  | [], rr, h => by
    simp only [addPriorityIndex] at h
    cases h
    rfl
  | s :: ss, rr, h => by
    simp only [addPriorityIndex] at h
    cases hi : listIndex prio s.1.category with
    | error e => rw [hi] at h; cases h
    | ok n =>
      rw [hi] at h
      cases ha : addPriorityIndex prio ss with
      | error e => rw [ha] at h; cases h
      | ok rest =>
        rw [ha] at h
        cases h
        simp [addPriorityIndex_ok_map_fst ha]

theorem addPriorityIndex_ok_rank {prio : List Int} :
    ∀ {ss : List Scored} {rr : List Ranked},
      addPriorityIndex prio ss = .ok rr →
      ∀ x ∈ rr, listIndex prio x.1.1.category = .ok x.2
  | [], rr, h => by
    simp only [addPriorityIndex] at h
    cases h
    intro x hx
    cases hx
  | s :: ss, rr, h => by
    simp only [addPriorityIndex] at h
    cases hi : listIndex prio s.1.category with
    | error e => rw [hi] at h; cases h
    | ok n =>
      rw [hi] at h
      cases ha : addPriorityIndex prio ss with
      | error e => rw [ha] at h; cases h
      | ok rest =>
        rw [ha] at h
        cases h
        intro x hx
        rcases List.mem_cons.mp hx with h1 | h1
        · subst h1; exact hi
        · exact addPriorityIndex_ok_rank ha x h1

theorem distOptLe_refl : ∀ a : Option ℚ, distOptLe a a
  | some x => le_refl x
  | none => trivial

theorem distOptLe_total : ∀ a b : Option ℚ, distOptLe a b ∨ distOptLe b a
  | some x, some y => by simpa [distOptLe] using le_total x y
  | some _, none => Or.inl trivial
  | none, some _ => Or.inr trivial
  | none, none => Or.inl trivial

theorem distOptLe_trans : ∀ {a b c : Option ℚ}, distOptLe a b → distOptLe b c → distOptLe a c
  | some _, some _, some _, h1, h2 => le_trans h1 h2
  | some _, some _, none, _, _ => trivial
  | some _, none, none, _, _ => trivial
  | none, none, none, _, _ => trivial
  | none, some _, none, _, _ => trivial
  | some _, none, some _, _, h2 => h2.elim
  | none, some _, some _, h1, _ => h1.elim
  | none, none, some _, _, h2 => h2.elim

instance : IsTotal Ranked RankedLe :=
  ⟨fun a b => by
    rcases Nat.lt_trichotomy a.2 b.2 with h | h | h
    · exact Or.inl (Or.inl h)
    · rcases distOptLe_total a.1.2 b.1.2 with hd | hd
      · exact Or.inl (Or.inr ⟨h, hd⟩)
      · exact Or.inr (Or.inr ⟨h.symm, hd⟩)
    · exact Or.inr (Or.inl h)⟩

instance : IsTrans Ranked RankedLe :=
  ⟨fun a b c hab hbc => by
    rcases hab with h1 | ⟨e1, d1⟩
    · rcases hbc with h2 | ⟨e2, d2⟩
      · exact Or.inl (h1.trans h2)
      · exact Or.inl (by rw [← e2]; exact h1)
    · rcases hbc with h2 | ⟨e2, d2⟩
      · exact Or.inl (by rw [e1]; exact h2)
      · exact Or.inr ⟨e1.trans e2, distOptLe_trans d1 d2⟩⟩

theorem rankedLe_of_key_eq {x y : Ranked} (h : rankedKey x = rankedKey y) : RankedLe x y := by
  simp only [rankedKey, Prod.mk.injEq] at h
  refine Or.inr ⟨h.1, ?_⟩
  rw [h.2]
  exact distOptLe_refl y.1.2

theorem filter_orderedInsert_of_ne (x : Ranked) (k : Nat × Option ℚ)
    (hx : ¬ (rankedKey x = k)) :
    ∀ l : List Ranked,
      (List.orderedInsert RankedLe x l).filter (fun y => decide (rankedKey y = k)) =
        l.filter (fun y => decide (rankedKey y = k))
  | [] => by simp [List.orderedInsert, hx]
  | y :: ys => by
    by_cases hle : RankedLe x y
    · rw [List.orderedInsert, if_pos hle]
      simp [List.filter_cons, hx]
    · rw [List.orderedInsert, if_neg hle]
      simp [List.filter_cons, filter_orderedInsert_of_ne x k hx ys]

theorem filter_orderedInsert_of_eq (x : Ranked) (k : Nat × Option ℚ)
    (hx : rankedKey x = k) :
    ∀ l : List Ranked,
      (List.orderedInsert RankedLe x l).filter (fun y => decide (rankedKey y = k)) =
        x :: l.filter (fun y => decide (rankedKey y = k))
  | [] => by simp [List.orderedInsert, hx]
  | y :: ys => by
    by_cases hle : RankedLe x y
    · rw [List.orderedInsert, if_pos hle]
      simp [List.filter_cons, hx]
    · have hyk : ¬ (rankedKey y = k) := by
        intro hyk
        exact hle (rankedLe_of_key_eq (hx.trans hyk.symm))
      rw [List.orderedInsert, if_neg hle]
      simp [List.filter_cons, hyk, filter_orderedInsert_of_eq x k hx ys]

theorem rankSort_stable_filter (l : List Ranked) (k : Nat × Option ℚ) :
    (rankSort l).filter (fun y => decide (rankedKey y = k)) =
      l.filter (fun y => decide (rankedKey y = k)) := by
  induction l with
  | nil => rfl
  | cons x xs ih =>
    rw [rankSort] at ih ⊢
    rw [List.insertionSort]
    by_cases hx : rankedKey x = k
    · rw [filter_orderedInsert_of_eq x k hx _, ih]
      simp [List.filter_cons, hx]
    · rw [filter_orderedInsert_of_ne x k hx _, ih]
      simp [List.filter_cons, hx]

theorem process_some_eq (oracle : String → GeoOutcome) (distf : Coord → Coord → ℚ)
    (dg : Option String) (u : Coord) (prio : List Int) (cache0 : Cache) (rows : List Row) :
    process oracle distf dg true (some u) prio cache0 rows =
      (match processCore oracle distf dg u prio cache0 rows with
       | (.ok po, tr) => (.ok (some po), tr)
       | (.error e, tr) => (.error e, tr)) := rfl

theorem process_ok_of_core {oracle : String → GeoOutcome} {distf : Coord → Coord → ℚ}
    {dg : Option String} {u : Coord} {prio : List Int} {cache0 : Cache} {rows : List Row}
    {po : ProcOut} {tr : List Event}
    (h : processCore oracle distf dg u prio cache0 rows = (.ok po, tr)) :
    process oracle distf dg true (some u) prio cache0 rows = (.ok (some po), tr) := by
  rw [process_some_eq, h]

theorem core_ok_of_process {oracle : String → GeoOutcome} {distf : Coord → Coord → ℚ}
    {dg : Option String} {u : Coord} {prio : List Int} {cache0 : Cache} {rows : List Row}
    {po : ProcOut} {tr : List Event}
    (h : process oracle distf dg true (some u) prio cache0 rows = (.ok (some po), tr)) :
    processCore oracle distf dg u prio cache0 rows = (.ok po, tr) := by
  rw [process_some_eq] at h
  cases hc : processCore oracle distf dg u prio cache0 rows with
  | mk res tr2 =>
    rw [hc] at h
    cases res with
    | ok q => simp at h; rw [h.1.symm, h.2.symm]
    | error e => simp at h

theorem process_ok_inv {oracle : String → GeoOutcome} {distf : Coord → Coord → ℚ}
    {d : String} {u : Coord} {prio : List Int} {cache0 : Cache} {rows : List Row}
    {po : ProcOut} {tr : List Event}
    (h : process oracle distf (some d) true (some u) prio cache0 rows = (.ok (some po), tr)) :
    ∃ vr mr,
      po.scored = (geoPassRun oracle distf u (fullAddress d) rows cache0).1 ∧
      po.savedCache = (geoPassRun oracle distf u (fullAddress d) rows cache0).2.1 ∧
      po.dfValid = po.scored.filter (fun s => s.2.isSome) ∧
      po.dfMissing = (po.scored.filter (fun s => !s.2.isSome)).map Prod.fst ∧
      addPriorityIndex prio po.dfValid = .ok vr ∧
      po.missingScored = (geoPassRun oracle distf u (mandalAddress d) po.dfMissing po.savedCache).1 ∧
      po.finalCache = (geoPassRun oracle distf u (mandalAddress d) po.dfMissing po.savedCache).2.1 ∧
      addPriorityIndex prio po.missingScored = .ok mr ∧
      po.validRanked = rankSort vr ∧
      po.missingRanked = rankSort mr ∧
      po.dfValidSorted = po.validRanked.map toOutRow ∧
      po.dfMissingSorted = po.missingRanked.map toOutRow ∧
      po.finalDf = po.dfValidSorted ++ po.dfMissingSorted ∧
      tr = (geoPassRun oracle distf u (fullAddress d) rows cache0).2.2
            ++ Event.save po.savedCache ::
               (geoPassRun oracle distf u (mandalAddress d) po.dfMissing po.savedCache).2.2 := by
  have h := core_ok_of_process h
  unfold processCore at h
  rw [geoPass_some_eq] at h
  simp only [] at h
  cases hv : addPriorityIndex prio
      ((geoPassRun oracle distf u (fullAddress d) rows cache0).1.filter
        (fun s => s.2.isSome)) with
  | error e =>
    rw [hv] at h
    simp only [] at h
    simp at h
  | ok vr =>
    rw [hv] at h
    simp only [] at h
    rw [geoPass_some_eq] at h
    simp only [] at h
    cases hm : addPriorityIndex prio
        (geoPassRun oracle distf u (mandalAddress d)
          (((geoPassRun oracle distf u (fullAddress d) rows cache0).1.filter
            (fun s => !s.2.isSome)).map Prod.fst)
          (geoPassRun oracle distf u (fullAddress d) rows cache0).2.1).1 with
    | error e =>
      rw [hm] at h
      simp only [] at h
      simp at h
    | ok mr =>
      rw [hm] at h
      simp only [] at h
      simp only [Prod.mk.injEq, Except.ok.injEq] at h
      obtain ⟨hpo, htr⟩ := h
      subst hpo
      exact ⟨vr, mr, rfl, rfl, rfl, rfl, hv, rfl, rfl, hm, rfl, rfl, rfl, rfl,
        by rw [← htr]; simp⟩

theorem rankSort_perm (l : List Ranked) : (rankSort l).Perm l :=
  List.perm_insertionSort RankedLe l

theorem rankSort_sorted (l : List Ranked) : List.Sorted RankedLe (rankSort l) :=
  List.sorted_insertionSort RankedLe l

/-- The identifying columns of an input row. -/
def rowKey (r : Row) : String × String × Int := (r.school, r.mandal, r.category)

/-- The identifying columns of an output row. -/
def outKey (o : OutRow) : String × String × Int := (o.school, o.mandal, o.category)

/-! Concrete fixture for a successful two-row run, used to witness the
theorems about successful `process` runs: the first row geocodes at the
full-address tier, the second row fails there and resolves at the
Mandal-only tier. -/

def wr1 : Row := ⟨"A", "M1", 4⟩

def wr2 : Row := ⟨"B", "M2", 1⟩

def wOracle : String → GeoOutcome := fun a =>
  if a = fullAddress "D" wr1 then .found (10, 10)
  else if a = mandalAddress "D" wr2 then .found (20, 20)
  else .notFound

def wDistf : Coord → Coord → ℚ := fun _ c => c.1

def wRun : Except PyErr (Option ProcOut) × List Event :=
  process wOracle wDistf (some "D") true (some (0, 0)) [1, 4] [] [wr1, wr2]

def wPo : ProcOut := (procOutOf wRun).getD defaultProcOut

def wTr : List Event := wRun.2

theorem wRun_eq :
    process wOracle wDistf (some "D") true (some (0, 0)) [1, 4] [] [wr1, wr2] =
      (.ok (some wPo), wTr) := rfl

/-- C1: for every input spreadsheet with at least one row and the required
columns present, `process` raises `NameError` while building the first full
address, because the name `DISTRICT` used in the address f-string is bound
nowhere in the program (`appModuleNames` collects every module-level
binding of `app.py`); consequently no output table and no cache save is
ever produced for non-empty inputs — the run ends with the error and an
empty event trace. -/
theorem claim_c1_nameError (oracle : String → GeoOutcome) (distf : Coord → Coord → ℚ)
    (u : Coord) (prio : List Int) (cache0 : Cache) (r : Row) (rs : List Row) :
    "DISTRICT" ∉ appModuleNames ∧
    process oracle distf appDistrictGlobal true (some u) prio cache0 (r :: rs) =
      (.error .nameError, []) :=
  ⟨by decide, rfl⟩

/-- C2: for every address already present in the cache,
`geocode_address_nominatim` returns the cached value with no external call
and leaves the cache unchanged; resolving the same address twice in a row
therefore issues no external call at all, and the cache keeps exactly one
entry for that address. -/
theorem claim_c2_cache_hit (oracle : String → GeoOutcome) (A : String) (cache : Cache)
    (v : Coord) (hwf : CacheWf cache) (h : cacheLookup cache A = some v) :
    geocode_address_nominatim oracle A cache = .ok (some v, cache, false) ∧
    geocode_address_nominatim oracle A (geocodeRun oracle A cache).2.1 =
      .ok (some v, cache, false) ∧
    countKey cache A = 1 := by
  have h1 : geocodeRun oracle A cache = (some v, cache, false) := by
    unfold geocodeRun
    rw [h]
  refine ⟨?_, ?_, countKey_eq_one_of_lookup hwf h⟩
  · rw [geocode_eq_run, h1]
  · rw [h1]
    rw [geocode_eq_run]
    simp [h1]

theorem claim_c2_cache_hit_witness :
    CacheWf [("X", ((1 : ℚ), (2 : ℚ)))] ∧
    cacheLookup [("X", ((1 : ℚ), (2 : ℚ)))] "X" = some (1, 2) ∧
    (geocode_address_nominatim (fun _ => GeoOutcome.err) "X" [("X", ((1 : ℚ), (2 : ℚ)))] =
        .ok (some (1, 2), [("X", (1, 2))], false) ∧
      geocode_address_nominatim (fun _ => GeoOutcome.err) "X"
          (geocodeRun (fun _ => GeoOutcome.err) "X" [("X", ((1 : ℚ), (2 : ℚ)))]).2.1 =
        .ok (some (1, 2), [("X", (1, 2))], false) ∧
      countKey [("X", ((1 : ℚ), (2 : ℚ)))] "X" = 1) :=
  ⟨by decide, by decide,
    claim_c2_cache_hit (fun _ => GeoOutcome.err) "X" [("X", ((1 : ℚ), (2 : ℚ)))] (1, 2)
      (by decide) (by decide)⟩

/-- C7: the ranking sort used at lines 81 and 100 is stable: for every sort
key, the records carrying that exact (priority rank, distance) key appear in
`rankSort l` in the same relative order as in the input `l` — equivalently,
every pair of records with equal priority rank and equal distance retains
its relative input order. -/
theorem claim_c7_sort_stable (l : List Ranked) (k : Nat × Option ℚ) :
    (rankSort l).filter (fun y => decide (rankedKey y = k)) =
      l.filter (fun y => decide (rankedKey y = k)) :=
  rankSort_stable_filter l k

/-- C8: `geocode_address_nominatim` never propagates an exception to its
caller: its result is always `Except.ok`, and when the address is uncached
and the external call raises (timeout or transport error) or returns no
result, it returns the not-found value `None` with the cache unchanged. -/
theorem claim_c8_no_propagation (oracle : String → GeoOutcome) (address : String)
    (cache : Cache) :
    (∃ v, geocode_address_nominatim oracle address cache = .ok v) ∧
    (cacheLookup cache address = none → oracle address = .err →
      geocode_address_nominatim oracle address cache = .ok (none, cache, true)) ∧
    (cacheLookup cache address = none → oracle address = .notFound →
      geocode_address_nominatim oracle address cache = .ok (none, cache, true)) := by
  refine ⟨⟨geocodeRun oracle address cache, geocode_eq_run oracle address cache⟩, ?_, ?_⟩
  · intro h1 h2
    unfold geocode_address_nominatim
    rw [h1, h2]
    rfl
  · intro h1 h2
    unfold geocode_address_nominatim
    rw [h1, h2]
    rfl

theorem claim_c8_no_propagation_witness :
    cacheLookup [] "Y" = none ∧ (fun _ => GeoOutcome.err) "Y" = GeoOutcome.err ∧
    (∃ v, geocode_address_nominatim (fun _ => GeoOutcome.err) "Y" [] = .ok v) ∧
    geocode_address_nominatim (fun _ => GeoOutcome.err) "Y" [] = .ok (none, [], true) :=
  ⟨rfl, rfl, (claim_c8_no_propagation (fun _ => GeoOutcome.err) "Y" []).1,
    (claim_c8_no_propagation (fun _ => GeoOutcome.err) "Y" []).2.1 rfl rfl⟩

/-- C9: for every record list containing a record whose category is absent
from the supplied priority list, the ranking stage
(`df['Category'].apply(lambda c: category_priority.index(c))`) fails with the
raised lookup error (Python's `ValueError`, the spec's
`UnknownCategoryError`), surfaced to the caller, rather than producing a
rank or dropping the row. -/
theorem claim_c9_unknown_category (prio : List Int) (rows : List Scored)
    (h : ∃ s ∈ rows, s.1.category ∉ prio) :
    addPriorityIndex prio rows = .error .valueError := by
  induction rows with
  | nil =>
    obtain ⟨s, hs, _⟩ := h
    cases hs
  | cons s ss ih =>
    by_cases hc : s.1.category ∈ prio
    · obtain ⟨n, hn⟩ := listIndex_ok_of_mem hc
      have hex : ∃ x ∈ ss, x.1.category ∉ prio := by
        obtain ⟨x, hx, hxc⟩ := h
        rcases List.mem_cons.mp hx with h1 | h1
        · subst h1
          exact absurd hc hxc
        · exact ⟨x, h1, hxc⟩
      simp only [addPriorityIndex, hn, ih hex]
    · simp only [addPriorityIndex, listIndex_error_of_not_mem hc]

/-- C6: in every successful run, within each tier's ranked sequence the rows
are ordered by `RankedLe`: priority rank ascending, then distance ascending,
with missing-distance rows after all rows with a distance in the same
priority rank; and each row's rank is the position of its category in the
user-supplied priority list. -/
theorem claim_c6_tier_sorted {oracle : String → GeoOutcome} {distf : Coord → Coord → ℚ}
    {d : String} {u : Coord} {prio : List Int} {cache0 : Cache} {rows : List Row}
    {po : ProcOut} {tr : List Event}
    (h : process oracle distf (some d) true (some u) prio cache0 rows = (.ok (some po), tr)) :
    List.Sorted RankedLe po.validRanked ∧ List.Sorted RankedLe po.missingRanked ∧
    (∀ x ∈ po.validRanked, listIndex prio x.1.1.category = .ok x.2) ∧
    (∀ x ∈ po.missingRanked, listIndex prio x.1.1.category = .ok x.2) := by
  obtain ⟨vr, mr, hs, hc1, hdv, hdm, hv, hms, hfc, hm, hvr, hmr, hvs, hmss, hfd, htr⟩ :=
    process_ok_inv h
  refine ⟨?_, ?_, ?_, ?_⟩
  · rw [hvr]
    exact rankSort_sorted vr
  · rw [hmr]
    exact rankSort_sorted mr
  · intro x hx
    rw [hvr] at hx
    exact addPriorityIndex_ok_rank hv x ((rankSort_perm vr).mem_iff.mp hx)
  · intro x hx
    rw [hmr] at hx
    exact addPriorityIndex_ok_rank hm x ((rankSort_perm mr).mem_iff.mp hx)

theorem claim_c6_tier_sorted_witness :
    (process wOracle wDistf (some "D") true (some (0, 0)) [1, 4] [] [wr1, wr2] =
      (.ok (some wPo), wTr)) ∧
    (List.Sorted RankedLe wPo.validRanked ∧ List.Sorted RankedLe wPo.missingRanked ∧
      (∀ x ∈ wPo.validRanked, listIndex [1, 4] x.1.1.category = .ok x.2) ∧
      (∀ x ∈ wPo.missingRanked, listIndex [1, 4] x.1.1.category = .ok x.2)) :=
  ⟨wRun_eq, claim_c6_tier_sorted wRun_eq⟩

/-- C5: in every successful run, the final output table is the ranked
full-address-tier sequence concatenated before the ranked fallback-tier
sequence: index-wise, the first block of `finalDf` is `dfValidSorted` and
the remainder is `dfMissingSorted`, whatever the rows' priority ranks and
distances; moreover the two ranked sequences contain exactly the
full-address-resolved rows and the fallback rows respectively. -/
theorem claim_c5_tier_concat {oracle : String → GeoOutcome} {distf : Coord → Coord → ℚ}
    {d : String} {u : Coord} {prio : List Int} {cache0 : Cache} {rows : List Row}
    {po : ProcOut} {tr : List Event}
    (h : process oracle distf (some d) true (some u) prio cache0 rows = (.ok (some po), tr)) :
    po.finalDf = po.dfValidSorted ++ po.dfMissingSorted ∧
    (∀ i : Nat, i < po.dfValidSorted.length → po.finalDf[i]? = po.dfValidSorted[i]?) ∧
    (∀ j : Nat, po.finalDf[po.dfValidSorted.length + j]? = po.dfMissingSorted[j]?) ∧
    List.Perm (po.validRanked.map Prod.fst) po.dfValid ∧
    List.Perm (po.missingRanked.map Prod.fst) po.missingScored := by
  obtain ⟨vr, mr, hs, hc1, hdv, hdm, hv, hms, hfc, hm, hvr, hmr, hvs, hmss, hfd, htr⟩ :=
    process_ok_inv h
  refine ⟨hfd, ?_, ?_, ?_, ?_⟩
  · intro i hi
    rw [hfd, List.getElem?_append, if_pos hi]
  · intro j
    rw [hfd, List.getElem?_append, if_neg (by omega), Nat.add_sub_cancel_left]
  · rw [hvr, ← addPriorityIndex_ok_map_fst hv]
    exact (rankSort_perm vr).map Prod.fst
  · rw [hmr, ← addPriorityIndex_ok_map_fst hm]
    exact (rankSort_perm mr).map Prod.fst

theorem claim_c5_tier_concat_witness :
    (process wOracle wDistf (some "D") true (some (0, 0)) [1, 4] [] [wr1, wr2] =
      (.ok (some wPo), wTr)) ∧
    (wPo.finalDf = wPo.dfValidSorted ++ wPo.dfMissingSorted ∧
      (∀ i : Nat, i < wPo.dfValidSorted.length → wPo.finalDf[i]? = wPo.dfValidSorted[i]?) ∧
      (∀ j : Nat, wPo.finalDf[wPo.dfValidSorted.length + j]? = wPo.dfMissingSorted[j]?) ∧
      List.Perm (wPo.validRanked.map Prod.fst) wPo.dfValid ∧
      List.Perm (wPo.missingRanked.map Prod.fst) wPo.missingScored) :=
  ⟨wRun_eq, claim_c5_tier_concat wRun_eq⟩

/-- C10: in every successful run, the full-address-resolved rows and the
fallback-marked rows partition the input rows, and the assembled output
table contains exactly one row per input row (duplicates included, nothing
deduplicated or dropped): the multiset of its identifying columns equals
that of the input. -/
theorem claim_c10_rows_preserved {oracle : String → GeoOutcome} {distf : Coord → Coord → ℚ}
    {d : String} {u : Coord} {prio : List Int} {cache0 : Cache} {rows : List Row}
    {po : ProcOut} {tr : List Event}
    (h : process oracle distf (some d) true (some u) prio cache0 rows = (.ok (some po), tr)) :
    List.Perm (po.dfValid.map Prod.fst ++ po.dfMissing) rows ∧
    List.Perm (po.finalDf.map outKey) (rows.map rowKey) := by
  obtain ⟨vr, mr, hs, hc1, hdv, hdm, hv, hms, hfc, hm, hvr, hmr, hvs, hmss, hfd, htr⟩ :=
    process_ok_inv h
  have hscored : po.scored.map Prod.fst = rows := by
    rw [hs]
    exact geoPassRun_map_fst oracle distf u (fullAddress d) rows cache0
  have hmf : po.missingScored.map Prod.fst = po.dfMissing := by
    rw [hms]
    exact geoPassRun_map_fst oracle distf u (mandalAddress d) po.dfMissing po.savedCache
  have hpart : List.Perm (po.dfValid.map Prod.fst ++ po.dfMissing) rows := by
    rw [hdv, hdm, ← hscored, ← List.map_append]
    exact (List.filter_append_perm (fun s => s.2.isSome) po.scored).map Prod.fst
  refine ⟨hpart, ?_⟩
  have e1 : po.finalDf.map outKey =
      (rankSort vr).map (fun x => rowKey x.1.1) ++
        (rankSort mr).map (fun x => rowKey x.1.1) := by
    rw [hfd, hvs, hmss, hvr, hmr, List.map_append]
    simp only [List.map_map]
    rfl
  have p2 : List.Perm
      ((rankSort vr).map (fun x => rowKey x.1.1) ++ (rankSort mr).map (fun x => rowKey x.1.1))
      (vr.map (fun x => rowKey x.1.1) ++ mr.map (fun x => rowKey x.1.1)) :=
    ((rankSort_perm vr).map _).append ((rankSort_perm mr).map _)
  have e3 : vr.map (fun x => rowKey x.1.1) ++ mr.map (fun x => rowKey x.1.1) =
      (po.dfValid.map Prod.fst ++ po.dfMissing).map rowKey := by
    rw [← addPriorityIndex_ok_map_fst hv, ← hmf, ← addPriorityIndex_ok_map_fst hm]
    simp only [List.map_map, List.map_append]
    rfl
  rw [e1]
  refine p2.trans ?_
  rw [e3]
  exact hpart.map rowKey

theorem claim_c10_rows_preserved_witness :
    (process wOracle wDistf (some "D") true (some (0, 0)) [1, 4] [] [wr1, wr2] =
      (.ok (some wPo), wTr)) ∧
    (List.Perm (wPo.dfValid.map Prod.fst ++ wPo.dfMissing) [wr1, wr2] ∧
      List.Perm (wPo.finalDf.map outKey) (([wr1, wr2] : List Row).map rowKey)) :=
  ⟨wRun_eq, claim_c10_rows_preserved wRun_eq⟩

/-! Concrete fixture refuting C3 as stated: a one-row run whose full
address is already cached, so the resolve is served from the cache, yet
the loop still sleeps one second. -/

def c3row : Row := ⟨"A", "M", 4⟩

def c3cache : Cache := [(fullAddress "D" c3row, (1, 2))]

def c3run : Except PyErr (Option ProcOut) × List Event :=
  process (fun _ => GeoOutcome.notFound) (fun _ c => c.1) (some "D") true (some (0, 0))
    [4] c3cache [c3row]

def c3tr : List Event := c3run.2

/-- C3 counterexample: the claim says the fixed 1-second delay is applied
after every external call attempt and NOT applied when a resolve is served
from the cache — i.e. in each run the number of sleeps equals the number of
external call attempts.  In this concrete run the single row is served from
the cache: the trace shows one sleep and zero external calls, so a delay is
taken around a cache hit and the counts differ. -/
theorem claim_c3_counterexample :
    procOutOf c3run ≠ none ∧
    sleepCount c3tr = 1 ∧ extCallCount c3tr = 0 ∧
    ¬ (sleepCount c3tr = extCallCount c3tr) :=
  ⟨by decide, by decide, by decide, by decide⟩

/-- C3 amended: the fixed 1-second delay is applied after every resolution
attempt of both loops — after external calls and equally after cache hits —
so a successful run sleeps once per processed row (first-pass rows plus
fallback rows), while external call attempts number at most that. -/
theorem claim_c3_amended {oracle : String → GeoOutcome} {distf : Coord → Coord → ℚ}
    {d : String} {u : Coord} {prio : List Int} {cache0 : Cache} {rows : List Row}
    {po : ProcOut} {tr : List Event}
    (h : process oracle distf (some d) true (some u) prio cache0 rows = (.ok (some po), tr)) :
    sleepCount tr = rows.length + po.dfMissing.length ∧
    extCallCount tr ≤ sleepCount tr := by
  obtain ⟨vr, mr, hs, hc1, hdv, hdm, hv, hms, hfc, hm, hvr, hmr, hvs, hmss, hfd, htr⟩ :=
    process_ok_inv h
  subst htr
  have s1 := geoPassRun_sleepCount oracle distf u (fullAddress d) rows cache0
  have s2 := geoPassRun_sleepCount oracle distf u (mandalAddress d) po.dfMissing po.savedCache
  have e1 := geoPassRun_extCallCount oracle distf u (fullAddress d) rows cache0
  have e2 := geoPassRun_extCallCount oracle distf u (mandalAddress d) po.dfMissing po.savedCache
  constructor
  · have s1' : List.countP isSleep
        (geoPassRun oracle distf u (fullAddress d) rows cache0).2.2 = rows.length := s1
    have s2' : List.countP isSleep
        (geoPassRun oracle distf u (mandalAddress d) po.dfMissing po.savedCache).2.2 =
          po.dfMissing.length := s2
    have hdecS : List.countP isSleep
        ((geoPassRun oracle distf u (fullAddress d) rows cache0).2.2 ++
          Event.save po.savedCache ::
            (geoPassRun oracle distf u (mandalAddress d) po.dfMissing po.savedCache).2.2) =
        List.countP isSleep (geoPassRun oracle distf u (fullAddress d) rows cache0).2.2 +
          List.countP isSleep
            (geoPassRun oracle distf u (mandalAddress d) po.dfMissing po.savedCache).2.2 := by
      rw [List.countP_append, List.countP_cons]
      rfl
    show List.countP isSleep _ = _
    rw [hdecS, s1', s2']
  · have e1' : List.countP isExtCall
        (geoPassRun oracle distf u (fullAddress d) rows cache0).2.2 ≤ rows.length := e1
    have e2' : List.countP isExtCall
        (geoPassRun oracle distf u (mandalAddress d) po.dfMissing po.savedCache).2.2 ≤
          po.dfMissing.length := e2
    have s1' : List.countP isSleep
        (geoPassRun oracle distf u (fullAddress d) rows cache0).2.2 = rows.length := s1
    have s2' : List.countP isSleep
        (geoPassRun oracle distf u (mandalAddress d) po.dfMissing po.savedCache).2.2 =
          po.dfMissing.length := s2
    have hdecE : List.countP isExtCall
        ((geoPassRun oracle distf u (fullAddress d) rows cache0).2.2 ++
          Event.save po.savedCache ::
            (geoPassRun oracle distf u (mandalAddress d) po.dfMissing po.savedCache).2.2) =
        List.countP isExtCall (geoPassRun oracle distf u (fullAddress d) rows cache0).2.2 +
          List.countP isExtCall
            (geoPassRun oracle distf u (mandalAddress d) po.dfMissing po.savedCache).2.2 := by
      rw [List.countP_append, List.countP_cons]
      rfl
    have hdecS : List.countP isSleep
        ((geoPassRun oracle distf u (fullAddress d) rows cache0).2.2 ++
          Event.save po.savedCache ::
            (geoPassRun oracle distf u (mandalAddress d) po.dfMissing po.savedCache).2.2) =
        List.countP isSleep (geoPassRun oracle distf u (fullAddress d) rows cache0).2.2 +
          List.countP isSleep
            (geoPassRun oracle distf u (mandalAddress d) po.dfMissing po.savedCache).2.2 := by
      rw [List.countP_append, List.countP_cons]
      rfl
    show List.countP isExtCall _ ≤ List.countP isSleep _
    rw [hdecE, hdecS]
    omega

theorem claim_c3_amended_witness :
    (process wOracle wDistf (some "D") true (some (0, 0)) [1, 4] [] [wr1, wr2] =
      (.ok (some wPo), wTr)) ∧
    (sleepCount wTr = ([wr1, wr2] : List Row).length + wPo.dfMissing.length ∧
      extCallCount wTr ≤ sleepCount wTr) :=
  ⟨wRun_eq, claim_c3_amended wRun_eq⟩

/-! Concrete fixture refuting C4 as stated: a one-row run whose full
address fails to geocode but whose Mandal-only address succeeds.  The
fallback pass appends the Mandal entry to the in-memory cache, but
`save_cache` ran once already — between the passes — so the persisted
cache does not contain the fallback entry. -/

def c4row : Row := ⟨"A", "M", 4⟩

def c4oracle : String → GeoOutcome := fun a =>
  if a = mandalAddress "D" c4row then .found (3, 4) else .notFound

def c4run : Except PyErr (Option ProcOut) × List Event :=
  process c4oracle (fun _ c => c.1) (some "D") true (some (0, 0)) [4] [] [c4row]

def c4po : ProcOut := (procOutOf c4run).getD defaultProcOut

/-- C4 counterexample: the claim says the persisted cache contains every
address-to-coordinates pair appended during resolution, including entries
added by the Mandal-only fallback pass.  In this concrete run the fallback
pass adds the Mandal address to the in-memory cache (`finalCache`), yet the
cache persisted by the single `save_cache` call (`savedCache`) lacks it,
and no save of the final cache ever appears in the trace. -/
theorem claim_c4_counterexample :
    procOutOf c4run = some c4po ∧
    cacheLookup c4po.finalCache (mandalAddress "D" c4row) = some (3, 4) ∧
    cacheLookup c4po.savedCache (mandalAddress "D" c4row) = none ∧
    saveCount c4run.2 = 1 ∧
    ¬ (Event.save c4po.finalCache ∈ c4run.2) :=
  ⟨rfl, by decide, by decide, by decide, by decide⟩

/-- C4 amended: the cache is persisted exactly once, after the full-address
pass and before the Mandal-only fallback pass: the single persisted cache
extends the cache loaded at run start with the entries appended during the
full-address pass, and the fallback pass extends it only in memory
(`finalCache` extends `savedCache`, but only `savedCache` is written). -/
theorem claim_c4_amended {oracle : String → GeoOutcome} {distf : Coord → Coord → ℚ}
    {d : String} {u : Coord} {prio : List Int} {cache0 : Cache} {rows : List Row}
    {po : ProcOut} {tr : List Event}
    (h : process oracle distf (some d) true (some u) prio cache0 rows = (.ok (some po), tr)) :
    saveCount tr = 1 ∧
    Event.save po.savedCache ∈ tr ∧
    (∀ k v, cacheLookup cache0 k = some v → cacheLookup po.savedCache k = some v) ∧
    (∀ k v, cacheLookup po.savedCache k = some v → cacheLookup po.finalCache k = some v) := by
  obtain ⟨vr, mr, hs, hc1, hdv, hdm, hv, hms, hfc, hm, hvr, hmr, hvs, hmss, hfd, htr⟩ :=
    process_ok_inv h
  subst htr
  have q1 := geoPassRun_saveCount oracle distf u (fullAddress d) rows cache0
  have q2 := geoPassRun_saveCount oracle distf u (mandalAddress d) po.dfMissing po.savedCache
  refine ⟨?_, ?_, ?_, ?_⟩
  · show List.countP isSave _ = 1
    rw [List.countP_append, List.countP_cons,
      show List.countP isSave (geoPassRun oracle distf u (fullAddress d) rows cache0).2.2 = 0
        from q1,
      show List.countP isSave
            (geoPassRun oracle distf u (mandalAddress d) po.dfMissing po.savedCache).2.2 = 0
        from q2]
    rfl
  · exact List.mem_append.mpr (Or.inr (List.mem_cons_self _ _))
  · intro k v hk
    rw [hc1]
    exact geoPassRun_cache_mono oracle distf u (fullAddress d) rows cache0 hk
  · intro k v hk
    rw [hfc]
    exact geoPassRun_cache_mono oracle distf u (mandalAddress d) po.dfMissing po.savedCache hk

theorem claim_c4_amended_witness :
    (process wOracle wDistf (some "D") true (some (0, 0)) [1, 4] [] [wr1, wr2] =
      (.ok (some wPo), wTr)) ∧
    (saveCount wTr = 1 ∧
      Event.save wPo.savedCache ∈ wTr ∧
      (∀ k v, cacheLookup [] k = some v → cacheLookup wPo.savedCache k = some v) ∧
      (∀ k v, cacheLookup wPo.savedCache k = some v → cacheLookup wPo.finalCache k = some v)) :=
  ⟨wRun_eq, claim_c4_amended wRun_eq⟩

theorem claim_c9_unknown_category_witness :
    (∃ s ∈ [((⟨"A", "M", 5⟩ : Row), (none : Option ℚ))], s.1.category ∉ ([1, 2] : List Int)) ∧
    addPriorityIndex [1, 2] [((⟨"A", "M", 5⟩ : Row), (none : Option ℚ))] =
      .error .valueError :=
  ⟨by decide, claim_c9_unknown_category [1, 2] _ (by decide)⟩

end APTransfers
